import Mathlib

/-!
# scalable-node-api: a shallow embedding of index.js

The program is one script that every process of the cluster runs from the top.
It reads three things from its surroundings (whether it is the cluster master,
the number of CPU cores, the PORT environment variable) and then either forks
workers and installs an exit handler, or builds an Express application with one
route and calls listen.

The embedding keeps the script's own names (numCPUs, PORT) and represents what a
run does as the list of calls it makes on the cluster, console and Express
objects, in program order.  Callbacks handed to those objects (the exit handler,
the route handler, the listen callback) are separate functions; the life of a
process is the run of the script followed by its callbacks, event after event.

What becomes of a request is decided by Express: its router picks the handler
and its res.send writes the response.  Both are part of the embedding, for the
4.x and the 5.x line of the package, since the script pins neither.
-/

namespace ScalableNodeApi

/-! ## JavaScript values and operators used by the script -/

/-- JavaScript values that occur in the script: undefined, strings and
non-negative integer numbers (the literal 3000 and process identifiers). -/
inductive JsVal
  | undefined
  | str (s : String)
  | num (n : Nat)
  deriving DecidableEq, Repr

/-- ToBoolean of JavaScript: undefined, the empty string and the number 0 are
falsy, every other value here is truthy. -/
def JsVal.truthy : JsVal → Bool
  | .undefined => false
  | .str s => !(s == "")
  | .num n => !(n == 0)

/-- The operator a || b: a when a is truthy, b otherwise. -/
def jsOr (a b : JsVal) : JsVal :=
  if a.truthy then a else b

/-- String conversion as done by a template literal. -/
def JsVal.toJsString : JsVal → String
  | .undefined => "undefined"
  | .str s => s
  | .num n => toString n

/-! ## What a process observes when the script starts -/

/-- The surroundings of one process running index.js. -/
structure Process where
  /-- cluster.isMaster -/
  isMaster : Bool
  /-- process.pid -/
  pid : Nat
  /-- os.cpus().length -/
  cpus : Nat
  /-- The PORT entry of the environment block: absent, or a string. -/
  envPORT : Option String
  deriving DecidableEq, Repr

/-- Reading process.env.PORT: undefined when the variable is absent, otherwise
the string stored in the environment. -/
def processEnvPORT (p : Process) : JsVal :=
  match p.envPORT with
  | none => .undefined
  | some s => .str s

/-- Line 6: const numCPUs = os.cpus().length. -/
def numCPUs (p : Process) : Nat := p.cpus

/-- Line 7: const PORT = process.env.PORT || 3000. -/
def PORT (p : Process) : JsVal := jsOr (processEnvPORT p) (.num 3000)

/-! ## JSON objects -/

/-- Values stored under the keys of the response object. -/
inductive JsonVal
  | num (n : Nat)
  | str (s : String)
  deriving DecidableEq, Repr

/-- A JSON object: its keys with their values, in order. -/
abbrev JsonObj := List (String × JsonVal)

/-- The keys of a JSON object. -/
def JsonObj.keys (o : JsonObj) : List String := o.map Prod.fst

/-- The value stored under a key of a JSON object. -/
def JsonObj.get? (o : JsonObj) (k : String) : Option JsonVal :=
  (o.find? (fun kv => kv.1 == k)).map Prod.snd

/-! ## Calls made by a run of the script -/

/-- The calls the script makes on its collaborators. -/
inductive Effect
  /-- console.log(line) -/
  | log (line : String)
  /-- cluster.fork() -/
  | fork
  /-- cluster.on("exit", handler) -/
  | onExit
  /-- express() -/
  | express
  /-- app.get(path, handler) -/
  | get (path : String)
  /-- app.listen(port, callback) -/
  | listen (port : JsVal)
  /-- res.json(obj), in a route handler -/
  | json (obj : JsonObj)
  deriving DecidableEq, Repr

/-- Lines 13-15: for (let i = 0; i < numCPUs; i++) cluster.fork(), started at
loop counter i. -/
def forkLoop (numCPUs i : Nat) : List Effect :=
  if i < numCPUs then Effect.fork :: forkLoop numCPUs (i + 1) else []
termination_by numCPUs - i

/-- Lines 9-34: the body of the script, as the list of calls in program order. -/
def main (p : Process) : List Effect :=
  if p.isMaster then
    [Effect.log ("Master " ++ toString p.pid ++ " forking for "
        ++ toString (numCPUs p) ++ " workers... ")]
      ++ forkLoop (numCPUs p) 0
      ++ [Effect.onExit]
  else
    [Effect.express, Effect.get "/", Effect.listen (PORT p)]

/-- The worker object handed to the exit handler; the handler reads
worker.process.pid only. -/
structure Worker where
  pid : Nat
  deriving DecidableEq, Repr

/-- Lines 17-20: the callback registered for the cluster exit event.  The event
is emitted with the worker, its exit code and the signal; the callback declares
one parameter and so ignores the other two. -/
def exitHandler (worker : Worker) (_code : Option Int) (_signal : Option String) :
    List Effect :=
  [Effect.log ("Worker " ++ toString worker.pid ++ " died; spawning a new one..."),
   Effect.fork]

/-- Lines 31-33: the callback given to app.listen. -/
def listenCallback (p : Process) : List Effect :=
  [Effect.log ("Worker " ++ toString p.pid ++ " started and listening on port "
      ++ (PORT p).toJsString)]

/-- Console output and responses: the calls that touch neither the cluster nor
the application object. -/
def Effect.isOutput : Effect → Bool
  | .log _ => true
  | .json _ => true
  | _ => false

/-- Number of cluster.fork() calls in a list of calls. -/
def forkCount (es : List Effect) : Nat := es.count Effect.fork

/-- The calls that act on the worker pool or the HTTP stack, console output
removed. -/
def withoutLogs (es : List Effect) : List Effect :=
  es.filter (fun e => match e with
    | .log _ => false
    | _ => true)

/-- The port value given to app.listen by a run, if the run calls listen. -/
def listenArgs (es : List Effect) : List JsVal :=
  es.filterMap (fun e => match e with
    | .listen v => some v
    | _ => none)

/-! ## The worker pool as seen by the supervisor -/

/-- State of the supervisor's pool: the number of live workers and the number of
cluster.fork() calls made so far. -/
structure Pool where
  live : Nat
  forks : Nat
  deriving DecidableEq, Repr

/-- Effect of one call on the pool: cluster.fork() starts one worker, every other
call leaves the pool alone. -/
def Pool.apply (s : Pool) : Effect → Pool
  | .fork => { live := s.live + 1, forks := s.forks + 1 }
  | _ => s

/-- Effect of a list of calls on the pool, in order. -/
def Pool.run (s : Pool) (es : List Effect) : Pool := es.foldl Pool.apply s

/-- The pool once the script has run to its end in process p, from an empty
pool. -/
def supervisorStart (p : Process) : Pool := Pool.run { live := 0, forks := 0 } (main p)

/-- The arguments of one cluster exit event. -/
structure ExitEvent where
  worker : Worker
  code : Option Int
  signal : Option String
  deriving DecidableEq, Repr

/-- One worker exit followed by its respawn: a live worker is gone, then the exit
handler runs.  There is no such event when no worker is alive. -/
def Pool.workerExit (s : Pool) (e : ExitEvent) : Option Pool :=
  if s.live = 0 then none
  else some (Pool.run { live := s.live - 1, forks := s.forks }
    (exitHandler e.worker e.code e.signal))

/-- A finite sequence of worker exits, each followed by its respawn. -/
def Pool.workerExits : Pool → List ExitEvent → Option Pool
  | s, [] => some s
  | s, e :: es => (s.workerExit e).bind (fun s1 => Pool.workerExits s1 es)

/-! ## The port handed to listen -/

/-- The number spelled by a non-empty string of decimal digits. -/
def decimalValue (s : String) : Option Nat :=
  if s.data ≠ [] ∧ s.data.all Char.isDigit = true then
    some (s.data.foldl (fun n c => n * 10 + (c.toNat - '0'.toNat)) 0)
  else none

/-- The port number that a value given to app.listen stands for: a number stands
for itself, a string of decimal digits for the number it spells. -/
def portDenoted : JsVal → Option Nat
  | .num n => some n
  | .str s => decimalValue s
  | .undefined => none

/-! ## The worker's HTTP side -/

/-- Request methods accepted by the Node HTTP parser. -/
inductive Method
  | ACL | BIND | CHECKOUT | CONNECT | COPY | DELETE | GET | HEAD | LINK | LOCK
  | MSEARCH | MERGE | MKACTIVITY | MKCALENDAR | MKCOL | MOVE | NOTIFY | OPTIONS
  | PATCH | POST | PROPFIND | PROPPATCH | PURGE | PUT | REBIND | REPORT | SEARCH
  | SOURCE | SUBSCRIBE | TRACE | UNBIND | UNLINK | UNLOCK | UNSUBSCRIBE
  deriving DecidableEq, Repr

/-- All request methods, in the alphabetical order of their names. -/
def Method.all : List Method :=
  [.ACL, .BIND, .CHECKOUT, .CONNECT, .COPY, .DELETE, .GET, .HEAD, .LINK, .LOCK,
   .MSEARCH, .MERGE, .MKACTIVITY, .MKCALENDAR, .MKCOL, .MOVE, .NOTIFY, .OPTIONS,
   .PATCH, .POST, .PROPFIND, .PROPPATCH, .PURGE, .PUT, .REBIND, .REPORT, .SEARCH,
   .SOURCE, .SUBSCRIBE, .TRACE, .UNBIND, .UNLINK, .UNLOCK, .UNSUBSCRIBE]

/-- An incoming request.  The field path is the pathname of the request URL,
which is what the router matches on; the query string is kept apart.  The field
headers is req.headers as Node builds it: header names in lower case, each with
its value. -/
structure Request where
  method : Method
  path : String
  query : String
  headers : List (String × String)
  body : String
  deriving DecidableEq, Repr

/-- Reading req.headers[name].  A header that is absent reads as undefined in
JavaScript; every use below only asks whether the value is truthy before it
looks at it, so undefined is rendered as the empty string, which is falsy
too. -/
def Request.header (req : Request) (name : String) : String :=
  match req.headers.find? (fun h => h.1 == name) with
  | some h => h.2
  | none => ""

/-- The release line of the express package that require("express") resolves
to.  The script pins none; v4 stands for the 4.x line (path-to-regexp 0.1,
fresh 0.5) and v5 for the 5.x line (path-to-regexp 8, fresh 2). -/
inductive ExpressVersion
  | v4
  | v5
  deriving DecidableEq, Repr

/-- The HTTP stack under a worker: the Express release line and the entity-tag
function of the application.  The default entity tag is a hash of the
serialised body; the hash is not computed here, it is taken as given. -/
structure Stack where
  express : ExpressVersion
  etag : JsonObj → String

/-- The response written by res.send: status code, Content-Type header (none
when the header is absent), ETag header (empty when absent) and the body handed
to the connection (none when no body is written). -/
structure Response where
  statusCode : Nat
  contentType : Option String
  etag : String
  body : Option JsonObj
  deriving DecidableEq, Repr

/-- The statusCode of the response object as the Node HTTP server hands it to
the application. -/
def initialStatusCode : Nat := 200

/-! ### The freshness check of res.send -/

/-- Split a list of characters at every occurrence of sep. -/
def splitOnChar (sep : Char) : List Char → List (List Char)
  | [] => [[]]
  | c :: cs =>
    if c = sep then [] :: splitOnChar sep cs
    else
      match splitOnChar sep cs with
      | [] => [[c]]
      | t :: ts => (c :: t) :: ts

/-- Drop the characters satisfying p from both ends. -/
def trimWhere (p : Char → Bool) (cs : List Char) : List Char :=
  ((cs.dropWhile p).reverse.dropWhile p).reverse

/-- The characters matched by the class of white space in a JavaScript regular
expression. -/
def isRegExpSpace (c : Char) : Bool :=
  c.toNat == 9 || c.toNat == 10 || c.toNat == 11 || c.toNat == 12 || c.toNat == 13
    || c.toNat == 32 || c.toNat == 160 || c.toNat == 5760
    || (decide (8192 ≤ c.toNat) && decide (c.toNat ≤ 8202))
    || c.toNat == 8232 || c.toNat == 8233 || c.toNat == 8239 || c.toNat == 8287
    || c.toNat == 12288 || c.toNat == 65279

/-- The test of the fresh package on the Cache-Control request header: some
element of the comma-separated list is no-cache, white space around it
aside. -/
def noCache (cacheControl : String) : Bool :=
  (splitOnChar ',' cacheControl.data).any
    (fun t => trimWhere isRegExpSpace t == "no-cache".data)

/-- The function parseTokenList of the fresh package: the elements of a
comma-separated list, spaces around each element removed. -/
def parseTokenList (str : String) : List String :=
  (splitOnChar ',' str.data).map (fun t => String.mk (trimWhere (fun c => c == ' ') t))

/-- The comparison of one If-None-Match token with the ETag of the response. -/
def etagMatches (token etag : String) : Bool :=
  token == etag || token == "W/" ++ etag || "W/" ++ token == etag

/-- The function of the fresh package, applied to the request headers and to a
response that carries the given ETag and no Last-Modified header (the script
never sets one, so a request that depends on If-Modified-Since is stale). -/
def fresh (v : ExpressVersion) (req : Request) (etag : String) : Bool :=
  let modifiedSince := req.header "if-modified-since"
  let noneMatch := req.header "if-none-match"
  let cacheControl := req.header "cache-control"
  if modifiedSince = "" ∧ noneMatch = "" then false
  else if cacheControl ≠ "" ∧ noCache cacheControl = true then false
  else
    match v with
    | .v4 =>
      if noneMatch ≠ "" ∧ noneMatch ≠ "*" ∧
          (etag = "" ∨ (parseTokenList noneMatch).all (fun t => !etagMatches t etag) = true)
      then false
      else if modifiedSince ≠ "" then false
      else true
    | .v5 =>
      if noneMatch ≠ "" then
        if noneMatch = "*" then true
        else if etag = "" then false
        else (parseTokenList noneMatch).any (fun t => etagMatches t etag)
      else if modifiedSince ≠ "" then false
      else true

/-- The getter req.fresh of Express: only a GET or HEAD request whose response
status is 2xx or 304 can be fresh, and then the fresh package decides. -/
def reqFresh (v : ExpressVersion) (req : Request) (statusCode : Nat) (etag : String) :
    Bool :=
  if req.method ≠ Method.GET ∧ req.method ≠ Method.HEAD then false
  else if (200 ≤ statusCode ∧ statusCode < 300) ∨ statusCode = 304 then fresh v req etag
  else false

/-- Express res.json(obj) with the res.send it ends in, on the response object
as the handler receives it (initial status code, no header set).  The
Content-Type becomes application/json with charset utf-8 and the ETag is
generated; when the request is fresh the status becomes 304, the Content-Type
is removed and no body is written; no body is written for a HEAD request
either. -/
def sendJson (stack : Stack) (req : Request) (obj : JsonObj) : Response :=
  if reqFresh stack.express req initialStatusCode (stack.etag obj) = true then
    { statusCode := 304, contentType := none, etag := stack.etag obj, body := none }
  else
    { statusCode := initialStatusCode
      contentType := some "application/json; charset=utf-8"
      etag := stack.etag obj
      body := if req.method = Method.HEAD then none else some obj }

/-! ### The route handler -/

/-- Lines 25-28: the object literal given to res.json; pid is process.pid. -/
def rootBody (p : Process) : JsonObj :=
  [("pid", .num p.pid), ("message", .str "Hello from the Node.js API!")]

/-- Lines 24-29: the callback registered by app.get("/", ...).  It makes one
call, res.json, and never looks at req. -/
def rootHandler (p : Process) (_req : Request) : List Effect :=
  [Effect.json (rootBody p)]

/-- The response a handler run produces for a request: the one written by its
first res.json call, none when the handler sends nothing. -/
def respond (stack : Stack) (req : Request) : List Effect → Option Response
  | [] => none
  | Effect.json obj :: _ => some (sendJson stack req obj)
  | _ :: rest => respond stack req rest

/-! ### The router -/

/-- A route of the Express router: its path and the methods it has handlers
for. -/
structure Route where
  path : String
  methods : List Method
  deriving DecidableEq, Repr

/-- The router table built by a run: app.get(path, handler) adds a route for path
with the single method GET. -/
def routes (es : List Effect) : List Route :=
  es.filterMap (fun e => match e with
    | .get path => some { path := path, methods := [Method.GET] }
    | _ => none)

/-- The pathnames accepted by the pattern the router compiles from a literal
route path without letters, such as /.  On the 4.x line the pattern lets one
trailing slash be present or absent, so the route / accepts / and the empty
pathname; on the 5.x line it lets one trailing slash be added, so the route /
accepts / and //. -/
def Route.matchesPath (v : ExpressVersion) (r : Route) (pathname : String) : Bool :=
  match v with
  | .v4 =>
    pathname.data == r.path.data ||
      pathname.data ==
        (if r.path.data.getLast? = some '/' then r.path.data.dropLast
         else r.path.data ++ ['/'])
  | .v5 => pathname.data == r.path.data || pathname.data == r.path.data ++ ['/']

/-- Express Route handles-method test: a HEAD request is served by the GET
handler when the route has no HEAD handler of its own. -/
def Route.handlesMethod (r : Route) (m : Method) : Bool :=
  let name := if m = Method.HEAD ∧ ¬ Method.HEAD ∈ r.methods then Method.GET else m
  decide (name ∈ r.methods)

/-- Express Route options: the methods of the route, with HEAD added when the
route has GET and no HEAD. -/
def Route.options (r : Route) : List Method :=
  if Method.GET ∈ r.methods ∧ ¬ Method.HEAD ∈ r.methods then r.methods ++ [Method.HEAD]
  else r.methods

/-- The Allow list of the automatic OPTIONS reply, from the methods collected on
the walk: the 4.x line lists each method once in the order met, the 5.x line
lists each once in alphabetical order. -/
def allowList (v : ExpressVersion) (collected : List Method) : List Method :=
  match v with
  | .v4 => collected.foldl (fun acc m => if m ∈ acc then acc else acc ++ [m]) []
  | .v5 => Method.all.filter (fun m => decide (m ∈ collected))

/-- What the router does with a request. -/
inductive Dispatch
  /-- the handler of this route is invoked -/
  | handler (r : Route)
  /-- no handler is invoked; the router itself answers an OPTIONS request with
  status 200 and the Allow header listing these methods -/
  | options (allow : List Method)
  /-- no handler is invoked and nothing answers: the default not-found reply -/
  | notFound
  deriving DecidableEq, Repr

/-- The walk of the Express router over its routes for a request with method m
and pathname path.  A route whose path matches and which handles the method gets
the request.  For an OPTIONS request the methods of the routes that match the
path are collected, and answered by the router when no handler took the
request. -/
def dispatch (v : ExpressVersion) (m : Method) (path : String) :
    List Route → List Method → Dispatch
  | [], collected =>
    if m = Method.OPTIONS ∧ collected ≠ [] then Dispatch.options (allowList v collected)
    else Dispatch.notFound
  | r :: rest, collected =>
    if r.matchesPath v path = true then
      if r.handlesMethod m then Dispatch.handler r
      else dispatch v m path rest
        (if m = Method.OPTIONS then collected ++ r.options else collected)
    else dispatch v m path rest collected

/-- What happens to a request in the process. -/
inductive Served
  /-- the application handler ran; res is the response it sent, if any -/
  | byHandler (res : Option Response)
  /-- the router answered the OPTIONS request itself -/
  | byOptions (allow : List Method)
  /-- the default not-found behaviour of the HTTP stack -/
  | notFound
  deriving DecidableEq, Repr

/-- Serving one request in process p: the router built by the run of the script
dispatches it; the only handler there is, is rootHandler. -/
def serve (stack : Stack) (p : Process) (req : Request) : Served :=
  match dispatch stack.express req.method req.path (routes (main p)) [] with
  | .handler _ => Served.byHandler (respond stack req (rootHandler p req))
  | .options allow => Served.byOptions allow
  | .notFound => Served.notFound

/-! ## The whole life of a process -/

/-- What can happen to a process after the script has run to its end. -/
inductive Event
  /-- the cluster emits exit for a worker -/
  | exit (e : ExitEvent)
  /-- the HTTP server of the process reports that it is listening -/
  | listening
  /-- a request arrives at the HTTP server of the process -/
  | request (req : Request)
  deriving DecidableEq, Repr

/-- Whether the event is a worker exit. -/
def Event.isExit : Event → Bool
  | .exit _ => true
  | _ => false

/-- The calls a process makes in reaction to an event: the callback registered
for the event by the run of the script, when there is one. -/
def react (stack : Stack) (p : Process) : Event → List Effect
  | .exit e =>
    if Effect.onExit ∈ main p then exitHandler e.worker e.code e.signal else []
  | .listening =>
    if listenArgs (main p) ≠ [] then listenCallback p else []
  | .request req =>
    match dispatch stack.express req.method req.path (routes (main p)) [] with
    | .handler _ => rootHandler p req
    | _ => []

/-- All calls of a process: those of the run of the script, then those of the
callbacks, event after event. -/
def processTrace (stack : Stack) (p : Process) (events : List Event) : List Effect :=
  main p ++ events.flatMap (react stack p)

/-! ## Lemmas -/

theorem forkLoop_eq_replicate (n i : Nat) :
    forkLoop n i = List.replicate (n - i) Effect.fork := by
  generalize h : n - i = k
  induction k generalizing i with
  | zero =>
    rw [forkLoop, if_neg (by omega)]
    rfl
  | succ k ih =>
    rw [forkLoop, if_pos (by omega), ih (i + 1) (by omega)]
    rfl

theorem main_master (pid cpus : Nat) (envPORT : Option String) :
    main (Process.mk true pid cpus envPORT) =
      Effect.log ("Master " ++ toString pid ++ " forking for " ++ toString cpus
          ++ " workers... ")
        :: (List.replicate cpus Effect.fork ++ [Effect.onExit]) := by
  simp [main, numCPUs, forkLoop_eq_replicate]

theorem main_worker (pid cpus : Nat) (envPORT : Option String) :
    main (Process.mk false pid cpus envPORT) =
      [Effect.express, Effect.get "/",
        Effect.listen (PORT (Process.mk false pid cpus envPORT))] := by
  simp [main]

theorem forkCount_replicate (n : Nat) (es : List Effect) :
    forkCount (List.replicate n Effect.fork ++ es) = n + forkCount es := by
  simp [forkCount, List.count_append, List.count_replicate_self]

theorem Pool.run_replicate_fork (n : Nat) (s : Pool) :
    Pool.run s (List.replicate n Effect.fork) =
      { live := s.live + n, forks := s.forks + n } := by
  induction n generalizing s with
  | zero => rfl
  | succ k ih =>
    rw [List.replicate_succ, Pool.run, List.foldl_cons]
    have := ih (Pool.apply s Effect.fork)
    rw [Pool.run] at this
    rw [this]
    simp [Pool.apply]
    omega

theorem Pool.run_append (s : Pool) (xs ys : List Effect) :
    Pool.run s (xs ++ ys) = Pool.run (Pool.run s xs) ys := by
  simp [Pool.run, List.foldl_append]

theorem supervisorStart_master (pid cpus : Nat) (envPORT : Option String) :
    supervisorStart (Process.mk true pid cpus envPORT) =
      { live := cpus, forks := cpus } := by
  rw [supervisorStart, main_master]
  rw [show ∀ (l : String) (r : List Effect), Effect.log l :: r = [Effect.log l] ++ r
    from fun _ _ => rfl]
  rw [Pool.run_append, Pool.run_append, Pool.run_replicate_fork]
  simp [Pool.run, Pool.apply]

theorem Pool.workerExit_pos (s : Pool) (e : ExitEvent) (h : 0 < s.live) :
    s.workerExit e = some { live := s.live, forks := s.forks + 1 } := by
  have h0 : ¬ s.live = 0 := by omega
  simp [Pool.workerExit, h0, exitHandler, Pool.run, Pool.apply]
  omega

theorem Pool.workerExits_pos (events : List ExitEvent) (s : Pool) (h : 0 < s.live) :
    s.workerExits events = some { live := s.live, forks := s.forks + events.length } := by
  induction events generalizing s with
  | nil => rfl
  | cons e es ih =>
    rw [Pool.workerExits, Pool.workerExit_pos s e h, Option.some_bind]
    rw [ih { live := s.live, forks := s.forks + 1 } h]
    simp
    omega

/-! ### Decimal numerals -/

theorem digitChar_value (k : Nat) (h : k < 10) :
    (Nat.digitChar k).toNat - '0'.toNat = k ∧ (Nat.digitChar k).isDigit = true := by
  interval_cases k <;> decide

theorem toDigitsCore_value (fuel : Nat) : ∀ (n : Nat) (ds : List Char), n < fuel →
    List.foldl (fun n c => n * 10 + (c.toNat - '0'.toNat)) 0
        (Nat.toDigitsCore 10 fuel n ds) =
      List.foldl (fun n c => n * 10 + (c.toNat - '0'.toNat)) n ds := by
  induction fuel with
  | zero => intro n ds h; omega
  | succ f ih =>
    intro n ds h
    have hd := (digitChar_value (n % 10) (Nat.mod_lt _ (by decide))).1
    simp only [Nat.toDigitsCore]
    split
    · rename_i h0
      rw [List.foldl_cons, hd]
      congr 1
      omega
    · rename_i h0
      rw [ih (n / 10) _ (by omega), List.foldl_cons, hd]
      congr 1
      omega

theorem toDigitsCore_isDigit (fuel : Nat) : ∀ (n : Nat) (ds : List Char),
    (∀ c ∈ ds, c.isDigit = true) →
      ∀ c ∈ Nat.toDigitsCore 10 fuel n ds, c.isDigit = true := by
  induction fuel with
  | zero => intro n ds h; simpa [Nat.toDigitsCore] using h
  | succ f ih =>
    intro n ds h
    have hd := (digitChar_value (n % 10) (Nat.mod_lt _ (by decide))).2
    have hds : ∀ c ∈ Nat.digitChar (n % 10) :: ds, c.isDigit = true := by
      intro c hc
      rcases List.mem_cons.1 hc with rfl | hc
      · exact hd
      · exact h c hc
    simp only [Nat.toDigitsCore]
    split
    · exact hds
    · exact ih _ _ hds

theorem toDigitsCore_ne_nil (fuel : Nat) : ∀ (n : Nat) (ds : List Char),
    ds ≠ [] → Nat.toDigitsCore 10 fuel n ds ≠ [] := by
  induction fuel with
  | zero => intro n ds h; simpa [Nat.toDigitsCore] using h
  | succ f ih =>
    intro n ds _
    simp only [Nat.toDigitsCore]
    split
    · simp
    · exact ih _ _ (by simp)

theorem toString_data (n : Nat) : (toString n).data = Nat.toDigitsCore 10 (n + 1) n [] := rfl

theorem toString_ne_empty (n : Nat) : toString n ≠ "" := by
  intro h
  have hd : (toString n).data = [] := by rw [h]
  rw [toString_data] at hd
  revert hd
  simp only [Nat.toDigitsCore]
  split
  · simp
  · exact toDigitsCore_ne_nil _ _ _ (by simp)

theorem decimalValue_toString (n : Nat) : decimalValue (toString n) = some n := by
  have hne : (toString n).data ≠ [] := by
    intro h
    exact toString_ne_empty n (String.ext h)
  have hall : (toString n).data.all Char.isDigit = true := by
    rw [List.all_eq_true, toString_data]
    exact toDigitsCore_isDigit _ _ _ (by simp)
  rw [decimalValue, if_pos ⟨hne, hall⟩, toString_data, toDigitsCore_value _ _ _ (by omega)]
  rfl

/-! ### Tables built by a run -/

theorem routes_replicate_fork (n : Nat) (es : List Effect) :
    routes (List.replicate n Effect.fork ++ es) = routes es := by
  induction n with
  | zero => rfl
  | succ k _ => simp [List.replicate_succ, routes]

theorem listenArgs_replicate_fork (n : Nat) (es : List Effect) :
    listenArgs (List.replicate n Effect.fork ++ es) = listenArgs es := by
  induction n with
  | zero => rfl
  | succ k _ => simp [List.replicate_succ, listenArgs]

theorem listenArgs_worker (pid cpus : Nat) (envPORT : Option String) :
    listenArgs (main (Process.mk false pid cpus envPORT)) =
      [PORT (Process.mk false pid cpus envPORT)] := by
  simp [main_worker, listenArgs]

theorem routes_worker (pid cpus : Nat) (envPORT : Option String) :
    routes (main (Process.mk false pid cpus envPORT)) =
      [{ path := "/", methods := [Method.GET] }] := by
  simp [main_worker, routes]

theorem PORT_some (pid cpus : Nat) (isMaster : Bool) (s : String) :
    PORT (Process.mk isMaster pid cpus (some s)) =
      if s = "" then JsVal.num 3000 else JsVal.str s := by
  by_cases h : s = "" <;> simp [PORT, jsOr, processEnvPORT, JsVal.truthy, h]


/-! ### The router on the table of a worker -/

theorem listenArgs_master (pid cpus : Nat) (envPORT : Option String) :
    listenArgs (main (Process.mk true pid cpus envPORT)) = [] := by
  rw [main_master]
  rw [show ∀ (l : String) (r : List Effect), listenArgs (Effect.log l :: r) = listenArgs r
    from fun _ _ => rfl, listenArgs_replicate_fork]
  rfl

theorem routes_master (pid cpus : Nat) (envPORT : Option String) :
    routes (main (Process.mk true pid cpus envPORT)) = [] := by
  rw [main_master]
  rw [show ∀ (l : String) (r : List Effect), routes (Effect.log l :: r) = routes r
    from fun _ _ => rfl, routes_replicate_fork]
  rfl

theorem matchesPath_root (v : ExpressVersion) (path : String) :
    Route.matchesPath v { path := "/", methods := [Method.GET] } path = true ↔
      path = "/" ∨ (v = ExpressVersion.v4 ∧ path = "") ∨
        (v = ExpressVersion.v5 ∧ path = "//") := by
  have h1 : "/".data = ['/'] := rfl
  have h2 : "".data = [] := rfl
  have h3 : "//".data = ['/', '/'] := rfl
  cases v <;> simp [Route.matchesPath, String.ext_iff, h1, h2, h3]

theorem dispatch_root (v : ExpressVersion) (m : Method) (path : String) :
    dispatch v m path [{ path := "/", methods := [Method.GET] }] [] =
      if Route.matchesPath v { path := "/", methods := [Method.GET] } path = true then
        if m = Method.GET ∨ m = Method.HEAD then
          Dispatch.handler { path := "/", methods := [Method.GET] }
        else if m = Method.OPTIONS then Dispatch.options [Method.GET, Method.HEAD]
        else Dispatch.notFound
      else Dispatch.notFound := by
  by_cases h : Route.matchesPath v { path := "/", methods := [Method.GET] } path = true
  · simp only [dispatch, h, if_true]
    cases v <;> cases m <;>
      simp [dispatch, Route.handlesMethod, Route.options, allowList, Method.all]
  · simp only [dispatch, h]
    cases m <;> simp

theorem serve_worker (stack : Stack) (pid cpus : Nat) (envPORT : Option String)
    (req : Request) :
    serve stack (Process.mk false pid cpus envPORT) req =
      if Route.matchesPath stack.express { path := "/", methods := [Method.GET] }
          req.path = true then
        if req.method = Method.GET ∨ req.method = Method.HEAD then
          Served.byHandler
            (some (sendJson stack req (rootBody (Process.mk false pid cpus envPORT))))
        else if req.method = Method.OPTIONS then Served.byOptions [Method.GET, Method.HEAD]
        else Served.notFound
      else Served.notFound := by
  rw [serve, routes_worker, dispatch_root]
  split_ifs <;> simp [respond, rootHandler]

theorem reqFresh_unconditional (v : ExpressVersion) (req : Request) (statusCode : Nat)
    (etag : String) (h1 : req.header "if-none-match" = "")
    (h2 : req.header "if-modified-since" = "") :
    reqFresh v req statusCode etag = false := by
  simp [reqFresh, fresh, h1, h2]

/-! ### Calls made by the callbacks -/

theorem output_only_facts (es : List Effect) (h : ∀ e ∈ es, e.isOutput = true) :
    forkCount es = 0 ∧ es.count Effect.onExit = 0 ∧ es.count Effect.express = 0 ∧
      routes es = [] ∧ listenArgs es = [] := by
  induction es with
  | nil => simp [forkCount, routes, listenArgs]
  | cons e rest ih =>
    have hr := ih (fun x hx => h x (List.mem_cons_of_mem _ hx))
    have he := h e (List.mem_cons_self _ _)
    cases e <;> simp [Effect.isOutput] at he <;>
      simpa [forkCount, routes, listenArgs, List.count_cons] using hr

theorem react_worker_output (stack : Stack) (pid cpus : Nat) (envPORT : Option String)
    (ev : Event) :
    ∀ e ∈ react stack (Process.mk false pid cpus envPORT) ev, e.isOutput = true := by
  cases ev with
  | exit x => simp [react, main_worker]
  | listening =>
    simp [react, listenArgs_worker, listenCallback, Effect.isOutput]
  | request req =>
    simp only [react]
    split <;> simp [rootHandler, Effect.isOutput]

theorem flatMap_output (stack : Stack) (pid cpus : Nat) (envPORT : Option String)
    (events : List Event) :
    ∀ e ∈ events.flatMap (react stack (Process.mk false pid cpus envPORT)),
      e.isOutput = true := by
  intro e he
  rw [List.mem_flatMap] at he
  obtain ⟨ev, _, hev⟩ := he
  exact react_worker_output stack pid cpus envPORT ev e hev

theorem react_master (stack : Stack) (pid cpus : Nat) (envPORT : Option String)
    (ev : Event) :
    react stack (Process.mk true pid cpus envPORT) ev =
      match ev with
      | .exit x => exitHandler x.worker x.code x.signal
      | _ => [] := by
  cases ev with
  | exit x => simp [react, main_master]
  | listening => simp [react, listenArgs_master]
  | request req =>
    simp only [react, routes_master, dispatch]
    split <;> simp_all

theorem reactions_master (stack : Stack) (pid cpus : Nat) (envPORT : Option String)
    (events : List Event) :
    forkCount (events.flatMap (react stack (Process.mk true pid cpus envPORT))) =
        events.countP Event.isExit ∧
      (events.flatMap (react stack (Process.mk true pid cpus envPORT))).count
        Effect.onExit = 0 ∧
      (events.flatMap (react stack (Process.mk true pid cpus envPORT))).count
        Effect.express = 0 ∧
      routes (events.flatMap (react stack (Process.mk true pid cpus envPORT))) = [] ∧
      listenArgs (events.flatMap (react stack (Process.mk true pid cpus envPORT))) = [] := by
  induction events with
  | nil => simp [forkCount, routes, listenArgs]
  | cons ev rest ih =>
    obtain ⟨i1, i2, i3, i4, i5⟩ := ih
    simp only [forkCount, routes, listenArgs] at i1 i4 i5 ⊢
    rw [List.flatMap_cons, react_master]
    cases ev <;>
      simp [exitHandler, List.count_cons, List.countP_cons, Event.isExit, i1, i2, i3, i4,
        i5, List.count_append, List.filterMap_append]

/-! ## The claims -/

/-- C1, as stated, fails: a GET request to / that carries If-None-Match: * is
found fresh by res.send on both Express lines and for every entity-tag
function, so the handler answers it with status 304 and no body instead of
status 200 and the JSON body. -/
theorem conditional_get_root_not_modified :
    (∀ etag : JsonObj → String,
      serve (Stack.mk ExpressVersion.v4 etag) (Process.mk false 7 4 none)
          (Request.mk Method.GET "/" "" [("if-none-match", "*")] "") =
        Served.byHandler (some
          { statusCode := 304, contentType := none,
            etag := etag (rootBody (Process.mk false 7 4 none)), body := none })) ∧
    (∀ etag : JsonObj → String,
      serve (Stack.mk ExpressVersion.v5 etag) (Process.mk false 7 4 none)
          (Request.mk Method.GET "/" "" [("if-none-match", "*")] "") =
        Served.byHandler (some
          { statusCode := 304, contentType := none,
            etag := etag (rootBody (Process.mk false 7 4 none)), body := none })) :=
  ⟨fun _ => rfl, fun _ => rfl⟩

/-- C1, amended: in every worker process, on either Express line, a GET request
to path / that res.send does not find fresh (none is found fresh that carries
neither If-None-Match nor If-Modified-Since) is answered by the route handler
with status 200 and a JSON body whose keys are exactly pid and message, where
pid is the process identifier of the worker that runs the handler and message is
the fixed greeting. -/
theorem get_root_response (stack : Stack) (pid cpus : Nat) (envPORT : Option String)
    (query : String) (headers : List (String × String)) (body : String)
    (hstale :
      ((Request.mk Method.GET "/" query headers body).header "if-none-match" = "" ∧
        (Request.mk Method.GET "/" query headers body).header "if-modified-since" = "") ∨
      reqFresh stack.express (Request.mk Method.GET "/" query headers body)
        initialStatusCode
        (stack.etag (rootBody (Process.mk false pid cpus envPORT))) = false) :
    ∃ res obj,
      serve stack (Process.mk false pid cpus envPORT)
          (Request.mk Method.GET "/" query headers body) =
        Served.byHandler (some res) ∧
      res.statusCode = 200 ∧
      res.body = some obj ∧
      obj.keys = ["pid", "message"] ∧
      obj.get? "pid" = some (JsonVal.num pid) ∧
      obj.get? "message" = some (JsonVal.str "Hello from the Node.js API!") := by
  have hf : reqFresh stack.express (Request.mk Method.GET "/" query headers body)
      initialStatusCode
      (stack.etag (rootBody (Process.mk false pid cpus envPORT))) = false := by
    rcases hstale with ⟨h1, h2⟩ | h
    · exact reqFresh_unconditional _ _ _ _ h1 h2
    · exact h
  have hm : Route.matchesPath stack.express { path := "/", methods := [Method.GET] }
      "/" = true := (matchesPath_root _ _).2 (Or.inl rfl)
  refine ⟨sendJson stack (Request.mk Method.GET "/" query headers body)
    (rootBody (Process.mk false pid cpus envPORT)),
    rootBody (Process.mk false pid cpus envPORT), ?_, ?_, ?_, ?_, ?_, ?_⟩
  · rw [serve_worker]
    simp [hm]
  · rw [sendJson, hf]
    rfl
  · rw [sendJson, hf]
    rfl
  · rfl
  · simp [rootBody, JsonObj.get?]
  · simp [rootBody, JsonObj.get?]

/-- Witness for C1 amended: a GET / without conditional headers, worker 7 on the
4.x line. -/
theorem get_root_response_witness :
    (((Request.mk Method.GET "/" "" [("accept", "*/*")] "").header "if-none-match" = "" ∧
        (Request.mk Method.GET "/" "" [("accept", "*/*")] "").header
          "if-modified-since" = "") ∨
      reqFresh ExpressVersion.v4 (Request.mk Method.GET "/" "" [("accept", "*/*")] "")
        initialStatusCode ((fun _ => "tag") (rootBody (Process.mk false 7 4 none))) =
          false) ∧
    ∃ res obj,
      serve (Stack.mk ExpressVersion.v4 (fun _ => "tag")) (Process.mk false 7 4 none)
          (Request.mk Method.GET "/" "" [("accept", "*/*")] "") =
        Served.byHandler (some res) ∧
      res.statusCode = 200 ∧
      res.body = some obj ∧
      obj.keys = ["pid", "message"] ∧
      obj.get? "pid" = some (JsonVal.num 7) ∧
      obj.get? "message" = some (JsonVal.str "Hello from the Node.js API!") :=
  ⟨Or.inl (by decide),
    get_root_response (Stack.mk ExpressVersion.v4 (fun _ => "tag")) 7 4 none ""
      [("accept", "*/*")] "" (Or.inl (by decide))⟩

/-- C2: for every core count N (so for every N at least 1) the run of the script
in the supervisor is one log line, then exactly N calls of cluster.fork(), then
the registration of the exit handler and nothing after it; the run makes N fork
calls in all and leaves N live workers. -/
theorem supervisor_forks_per_core (pid N : Nat) (envPORT : Option String) :
    (∃ line, main (Process.mk true pid N envPORT) =
      Effect.log line :: (List.replicate N Effect.fork ++ [Effect.onExit])) ∧
    forkCount (main (Process.mk true pid N envPORT)) = N ∧
    supervisorStart (Process.mk true pid N envPORT) = { live := N, forks := N } := by
  refine ⟨⟨_, main_master pid N envPORT⟩, ?_, supervisorStart_master pid N envPORT⟩
  rw [main_master]
  rw [show ∀ (l : String) (r : List Effect), Effect.log l :: r = [Effect.log l] ++ r
    from fun _ _ => rfl]
  simp [forkCount, List.count_append, List.count_replicate_self, List.count_cons]

/-- C3: for every two exit events e1 and e2, whatever their worker, exit code and
signal, the exit handler makes exactly one cluster.fork() call; its calls other
than console output are the single fork for both events; on every pool it adds
one live worker and one fork; and events that name the same worker and differ in
code and signal only give the very same list of calls. -/
theorem exit_handler_forks_once (e1 e2 : ExitEvent) :
    forkCount (exitHandler e1.worker e1.code e1.signal) = 1 ∧
    withoutLogs (exitHandler e1.worker e1.code e1.signal) = [Effect.fork] ∧
    withoutLogs (exitHandler e1.worker e1.code e1.signal) =
      withoutLogs (exitHandler e2.worker e2.code e2.signal) ∧
    (∀ s : Pool, Pool.run s (exitHandler e1.worker e1.code e1.signal) =
      Pool.run s (exitHandler e2.worker e2.code e2.signal) ∧
      Pool.run s (exitHandler e1.worker e1.code e1.signal) =
        { live := s.live + 1, forks := s.forks + 1 }) ∧
    exitHandler e1.worker e1.code e1.signal = exitHandler e1.worker e2.code e2.signal := by
  refine ⟨?_, ?_, ?_, ?_, rfl⟩
  · simp [forkCount, exitHandler, List.count_cons]
  · simp [withoutLogs, exitHandler]
  · simp [withoutLogs, exitHandler]
  · intro s
    simp [Pool.run, Pool.apply, exitHandler]

/-- C4: start the supervisor on N cores and let any finite sequence of worker exit
events happen, each followed by its respawn (with no worker alive there is no
exit event, so the sequence is empty when N is 0).  Then the sequence can run to
its end, the live worker count is N again and the number of forks is N plus the
length of the sequence. -/
theorem respawn_restores_pool (pid N : Nat) (envPORT : Option String)
    (events : List ExitEvent) (h : 0 < N ∨ events = []) :
    (supervisorStart (Process.mk true pid N envPORT)).workerExits events =
      some { live := N, forks := N + events.length } := by
  rw [supervisorStart_master]
  rcases h with h | h
  · exact Pool.workerExits_pos events _ h
  · subst h
    rfl

/-- Witness for C4: four cores, one worker killed by a signal; one replacement is
forked and four workers are alive. -/
theorem respawn_restores_pool_witness :
    (0 < 4 ∨ [ExitEvent.mk (Worker.mk 4242) none (some "SIGKILL")] = []) ∧
    (supervisorStart (Process.mk true 1000 4 none)).workerExits
        [ExitEvent.mk (Worker.mk 4242) none (some "SIGKILL")] =
      some { live := 4, forks := 5 } :=
  ⟨Or.inl (by decide),
    respawn_restores_pool 1000 4 none [ExitEvent.mk (Worker.mk 4242) none (some "SIGKILL")]
      (Or.inl (by decide))⟩

/-- C5: when the PORT environment variable is absent, a worker calls listen once
and the port value it passes is the number 3000. -/
theorem port_default_when_absent (pid cpus : Nat) :
    listenArgs (main (Process.mk false pid cpus none)) = [JsVal.num 3000] := by
  rw [listenArgs_worker]
  rfl

/-- C6: when PORT is set to the decimal numeral of a port number n, a worker
passes that numeral to listen; the value passed denotes n, and it denotes 3000
only when n is 3000.  With PORT set to 8080 the value passed denotes 8080. -/
theorem port_from_environment (pid cpus n : Nat) :
    listenArgs (main (Process.mk false pid cpus (some (toString n)))) =
      [JsVal.str (toString n)] ∧
    portDenoted (JsVal.str (toString n)) = some n ∧
    (portDenoted (JsVal.str (toString n)) = some 3000 ↔ n = 3000) ∧
    listenArgs (main (Process.mk false pid cpus (some "8080"))) = [JsVal.str "8080"] ∧
    portDenoted (JsVal.str "8080") = some 8080 := by
  have hd : portDenoted (JsVal.str (toString n)) = some n := decimalValue_toString n
  refine ⟨?_, hd, ?_, ?_, by decide⟩
  · rw [listenArgs_worker, PORT_some, if_neg (toString_ne_empty n)]
  · rw [hd]
    simp
  · rw [listenArgs_worker]
    rfl

/-- C7: take all calls a process makes in its life: those of the run of the
script and those of its callbacks (exit handler, listen callback, route
handler), for any sequence of events.  The supervisor makes its fork calls (one
per core and one per worker exit) and registers the exit handler once, and
never creates an Express application, registers a route or calls listen.  A
worker creates the application, registers the route for / and calls listen
exactly once, and never forks or registers an exit handler. -/
theorem roles_exclusive (stack : Stack) (pid cpus : Nat) (envPORT : Option String)
    (events : List Event) :
    (forkCount (processTrace stack (Process.mk true pid cpus envPORT) events) =
        cpus + events.countP Event.isExit ∧
      (processTrace stack (Process.mk true pid cpus envPORT) events).count
        Effect.onExit = 1 ∧
      (processTrace stack (Process.mk true pid cpus envPORT) events).count
        Effect.express = 0 ∧
      routes (processTrace stack (Process.mk true pid cpus envPORT) events) = [] ∧
      listenArgs (processTrace stack (Process.mk true pid cpus envPORT) events) = []) ∧
    ((processTrace stack (Process.mk false pid cpus envPORT) events).count
        Effect.express = 1 ∧
      routes (processTrace stack (Process.mk false pid cpus envPORT) events) =
        [{ path := "/", methods := [Method.GET] }] ∧
      (listenArgs (processTrace stack (Process.mk false pid cpus envPORT) events)).length
        = 1 ∧
      forkCount (processTrace stack (Process.mk false pid cpus envPORT) events) = 0 ∧
      (processTrace stack (Process.mk false pid cpus envPORT) events).count
        Effect.onExit = 0) := by
  have hcons : ∀ (l : String) (r : List Effect), Effect.log l :: r = [Effect.log l] ++ r :=
    fun _ _ => rfl
  obtain ⟨m1, m2, m3, m4, m5⟩ := reactions_master stack pid cpus envPORT events
  obtain ⟨w1, w2, w3, w4, w5⟩ :=
    output_only_facts _ (flatMap_output stack pid cpus envPORT events)
  have hr : ∀ a b : List Effect, routes (a ++ b) = routes a ++ routes b :=
    fun a b => by simp [routes, List.filterMap_append]
  have hl : ∀ a b : List Effect, listenArgs (a ++ b) = listenArgs a ++ listenArgs b :=
    fun a b => by simp [listenArgs, List.filterMap_append]
  have hf : ∀ a b : List Effect, forkCount (a ++ b) = forkCount a + forkCount b :=
    fun a b => by simp [forkCount, List.count_append]
  refine ⟨⟨?_, ?_, ?_, ?_, ?_⟩, ?_, ?_, ?_, ?_, ?_⟩
  · rw [processTrace, hf, m1, main_master, hcons]
    simp [forkCount, List.count_append, List.count_replicate_self, List.count_cons]
  · rw [processTrace, List.count_append, m2, main_master, hcons]
    simp [List.count_append, List.count_replicate, List.count_cons]
  · rw [processTrace, List.count_append, m3, main_master, hcons]
    simp [List.count_append, List.count_replicate, List.count_cons]
  · rw [processTrace, hr, m4, routes_master]
    rfl
  · rw [processTrace, hl, m5, listenArgs_master]
    rfl
  · rw [processTrace, List.count_append, w3]
    simp [main_worker, List.count_cons]
  · rw [processTrace, hr, w4, routes_worker]
    rfl
  · rw [processTrace, hl, w5, listenArgs_worker]
    rfl
  · rw [processTrace, hf, w1]
    simp [main_worker, forkCount, List.count_cons]
  · rw [processTrace, List.count_append, w2]
    simp [main_worker, List.count_cons]

/-- C8, as stated, fails: a HEAD request to / has a method other than GET, yet
on both Express lines the router hands it to the handler registered with
app.get; an OPTIONS request to / is answered by the router with the allowed
methods instead of the not-found reply; and on the 5.x line a GET request to
the pathname //, which is not /, reaches the handler too. -/
theorem head_root_reaches_handler :
    (Request.mk Method.HEAD "/" "" [] "").method ≠ Method.GET ∧
    (∀ etag : JsonObj → String,
      serve (Stack.mk ExpressVersion.v4 etag) (Process.mk false 7 4 none)
          (Request.mk Method.HEAD "/" "" [] "") =
        Served.byHandler (some
          { statusCode := 200, contentType := some "application/json; charset=utf-8",
            etag := etag (rootBody (Process.mk false 7 4 none)), body := none })) ∧
    (∀ etag : JsonObj → String,
      serve (Stack.mk ExpressVersion.v5 etag) (Process.mk false 7 4 none)
          (Request.mk Method.HEAD "/" "" [] "") =
        Served.byHandler (some
          { statusCode := 200, contentType := some "application/json; charset=utf-8",
            etag := etag (rootBody (Process.mk false 7 4 none)), body := none })) ∧
    (∀ etag : JsonObj → String,
      serve (Stack.mk ExpressVersion.v4 etag) (Process.mk false 7 4 none)
          (Request.mk Method.OPTIONS "/" "" [] "") =
        Served.byOptions [Method.GET, Method.HEAD]) ∧
    (∀ etag : JsonObj → String,
      serve (Stack.mk ExpressVersion.v5 etag) (Process.mk false 7 4 none)
          (Request.mk Method.OPTIONS "/" "" [] "") =
        Served.byOptions [Method.GET, Method.HEAD]) ∧
    (Request.mk Method.GET "//" "" [] "").path ≠ "/" ∧
    (∀ etag : JsonObj → String,
      serve (Stack.mk ExpressVersion.v5 etag) (Process.mk false 7 4 none)
          (Request.mk Method.GET "//" "" [] "") =
        Served.byHandler (some
          { statusCode := 200, contentType := some "application/json; charset=utf-8",
            etag := etag (rootBody (Process.mk false 7 4 none)),
            body := some [("pid", JsonVal.num 7),
              ("message", JsonVal.str "Hello from the Node.js API!")] })) :=
  ⟨by decide, fun _ => rfl, fun _ => rfl, fun _ => rfl, fun _ => rfl, by decide,
    fun _ => rfl⟩

/-- C8, amended: a worker registers exactly one route, GET on /.  The pattern
the router makes of / accepts the pathname / and, besides it, only the empty
pathname on the 4.x line of Express and only // on the 5.x line.  For every
request whose method is neither GET nor HEAD, or whose pathname that pattern
does not accept, the handler is not invoked: the request gets the default
not-found reply, except an OPTIONS request to an accepted pathname, which the
router answers itself with the allowed methods GET and HEAD.  A HEAD request to
/ is handed to the GET handler. -/
theorem unrouted_requests_not_handled (stack : Stack) (pid cpus : Nat)
    (envPORT : Option String) (req : Request)
    (h : (req.method ≠ Method.GET ∧ req.method ≠ Method.HEAD) ∨
      Route.matchesPath stack.express { path := "/", methods := [Method.GET] }
        req.path = false) :
    routes (main (Process.mk false pid cpus envPORT)) =
      [{ path := "/", methods := [Method.GET] }] ∧
    (Route.matchesPath stack.express { path := "/", methods := [Method.GET] } req.path
        = true ↔
      req.path = "/" ∨ (stack.express = ExpressVersion.v4 ∧ req.path = "") ∨
        (stack.express = ExpressVersion.v5 ∧ req.path = "//")) ∧
    (∀ res, serve stack (Process.mk false pid cpus envPORT) req ≠ Served.byHandler res) ∧
    serve stack (Process.mk false pid cpus envPORT) req =
      (if req.method = Method.OPTIONS ∧
          Route.matchesPath stack.express { path := "/", methods := [Method.GET] }
            req.path = true
        then Served.byOptions [Method.GET, Method.HEAD] else Served.notFound) ∧
    (∀ (query : String) (headers : List (String × String)) (body : String),
      serve stack (Process.mk false pid cpus envPORT)
          (Request.mk Method.HEAD "/" query headers body) =
        Served.byHandler (respond stack (Request.mk Method.HEAD "/" query headers body)
          (rootHandler (Process.mk false pid cpus envPORT)
            (Request.mk Method.HEAD "/" query headers body)))) := by
  have hs : serve stack (Process.mk false pid cpus envPORT) req =
      (if req.method = Method.OPTIONS ∧
          Route.matchesPath stack.express { path := "/", methods := [Method.GET] }
            req.path = true
        then Served.byOptions [Method.GET, Method.HEAD] else Served.notFound) := by
    rw [serve_worker]
    by_cases hp : Route.matchesPath stack.express { path := "/", methods := [Method.GET] }
        req.path = true
    · rcases h with ⟨hg, hh⟩ | h
      · by_cases ho : req.method = Method.OPTIONS <;> simp [hp, hg, hh, ho]
      · rw [hp] at h
        exact absurd h (by decide)
    · simp [hp]
  refine ⟨routes_worker pid cpus envPORT, matchesPath_root _ _, ?_, hs, ?_⟩
  · intro res
    rw [hs]
    split <;> simp
  · intro query headers body
    have hm : Route.matchesPath stack.express { path := "/", methods := [Method.GET] }
        "/" = true := (matchesPath_root _ _).2 (Or.inl rfl)
    rw [serve_worker]
    simp [hm, respond, rootHandler]

/-- Witness for C8 amended: a POST request to / in a worker on the 5.x line. -/
theorem unrouted_requests_not_handled_witness :
    (((Request.mk Method.POST "/" "" [] "x=1").method ≠ Method.GET ∧
        (Request.mk Method.POST "/" "" [] "x=1").method ≠ Method.HEAD) ∨
      Route.matchesPath ExpressVersion.v5 { path := "/", methods := [Method.GET] }
        (Request.mk Method.POST "/" "" [] "x=1").path = false) ∧
    serve (Stack.mk ExpressVersion.v5 (fun _ => "tag")) (Process.mk false 7 4 none)
        (Request.mk Method.POST "/" "" [] "x=1") = Served.notFound :=
  ⟨Or.inl (by decide),
    (unrouted_requests_not_handled (Stack.mk ExpressVersion.v5 (fun _ => "tag")) 7 4 none
      (Request.mk Method.POST "/" "" [] "x=1") (Or.inl (by decide))).2.2.2.1⟩

/-- C9, as stated, fails: two GET requests to / that differ only in their
headers, one bare and one with If-None-Match: *, served by the same worker on
the same stack, get different answers: status 200 with the JSON body for the
first, status 304 with no body for the second.  This holds on both Express
lines and for every entity-tag function. -/
theorem get_root_depends_on_conditional_headers :
    (∀ etag : JsonObj → String,
      serve (Stack.mk ExpressVersion.v4 etag) (Process.mk false 7 4 none)
          (Request.mk Method.GET "/" "" [] "") ≠
        serve (Stack.mk ExpressVersion.v4 etag) (Process.mk false 7 4 none)
          (Request.mk Method.GET "/" "" [("if-none-match", "*")] "")) ∧
    (∀ etag : JsonObj → String,
      serve (Stack.mk ExpressVersion.v5 etag) (Process.mk false 7 4 none)
          (Request.mk Method.GET "/" "" [] "") ≠
        serve (Stack.mk ExpressVersion.v5 etag) (Process.mk false 7 4 none)
          (Request.mk Method.GET "/" "" [("if-none-match", "*")] "")) ∧
    (∀ etag : JsonObj → String,
      serve (Stack.mk ExpressVersion.v4 etag) (Process.mk false 7 4 none)
          (Request.mk Method.GET "/" "" [] "") =
        Served.byHandler (some
          { statusCode := 200, contentType := some "application/json; charset=utf-8",
            etag := etag (rootBody (Process.mk false 7 4 none)),
            body := some (rootBody (Process.mk false 7 4 none)) })) ∧
    (∀ etag : JsonObj → String,
      serve (Stack.mk ExpressVersion.v4 etag) (Process.mk false 7 4 none)
          (Request.mk Method.GET "/" "" [("if-none-match", "*")] "") =
        Served.byHandler (some
          { statusCode := 304, contentType := none,
            etag := etag (rootBody (Process.mk false 7 4 none)), body := none })) := by
  refine ⟨fun etag h => ?_, fun etag h => ?_, fun _ => rfl, fun _ => rfl⟩
  · have h2 : (200 : Nat) = 304 := by
      have := congrArg (fun s => match s with
        | Served.byHandler (some r) => r.statusCode
        | _ => 0) h
      exact this
    exact absurd h2 (by decide)
  · have h2 : (200 : Nat) = 304 := by
      have := congrArg (fun s => match s with
        | Served.byHandler (some r) => r.statusCode
        | _ => 0) h
      exact this
    exact absurd h2 (by decide)

/-- C9, amended: two GET requests to / served by workers with the same process
identifier on the same stack get the same response (status, headers and body),
whatever their query strings, bodies and headers, as long as res.send finds
both fresh or both not fresh; it finds neither fresh when neither carries
If-None-Match or If-Modified-Since.  The response does not depend on the core
count or the PORT of the worker. -/
theorem get_root_independent_of_request (stack : Stack) (pid cpus1 cpus2 : Nat)
    (env1 env2 : Option String) (query1 query2 : String)
    (headers1 headers2 : List (String × String)) (body1 body2 : String)
    (hsame :
      (((Request.mk Method.GET "/" query1 headers1 body1).header "if-none-match" = "" ∧
          (Request.mk Method.GET "/" query1 headers1 body1).header
            "if-modified-since" = "") ∧
        ((Request.mk Method.GET "/" query2 headers2 body2).header "if-none-match" = "" ∧
          (Request.mk Method.GET "/" query2 headers2 body2).header
            "if-modified-since" = "")) ∨
      reqFresh stack.express (Request.mk Method.GET "/" query1 headers1 body1)
          initialStatusCode (stack.etag (rootBody (Process.mk false pid cpus1 env1))) =
        reqFresh stack.express (Request.mk Method.GET "/" query2 headers2 body2)
          initialStatusCode (stack.etag (rootBody (Process.mk false pid cpus2 env2)))) :
    serve stack (Process.mk false pid cpus1 env1)
        (Request.mk Method.GET "/" query1 headers1 body1) =
      serve stack (Process.mk false pid cpus2 env2)
        (Request.mk Method.GET "/" query2 headers2 body2) := by
  have hf : reqFresh stack.express (Request.mk Method.GET "/" query1 headers1 body1)
        initialStatusCode (stack.etag (rootBody (Process.mk false pid cpus1 env1))) =
      reqFresh stack.express (Request.mk Method.GET "/" query2 headers2 body2)
        initialStatusCode (stack.etag (rootBody (Process.mk false pid cpus2 env2))) := by
    rcases hsame with ⟨⟨a1, a2⟩, b1, b2⟩ | h
    · rw [reqFresh_unconditional _ _ _ _ a1 a2, reqFresh_unconditional _ _ _ _ b1 b2]
    · exact h
  have hm : Route.matchesPath stack.express { path := "/", methods := [Method.GET] }
      "/" = true := (matchesPath_root _ _).2 (Or.inl rfl)
  have hb : rootBody (Process.mk false pid cpus1 env1) =
      rootBody (Process.mk false pid cpus2 env2) := rfl
  rw [serve_worker, serve_worker]
  simp only [hm, if_true, true_or]
  rw [sendJson, sendJson, hf, hb]

/-- Witness for C9 amended: two GET / requests without conditional headers that
differ in query string, headers and body, on the 5.x line. -/
theorem get_root_independent_of_request_witness :
    ((((Request.mk Method.GET "/" "a=1" [("accept", "text/html")] "").header
            "if-none-match" = "" ∧
          (Request.mk Method.GET "/" "a=1" [("accept", "text/html")] "").header
            "if-modified-since" = "") ∧
        ((Request.mk Method.GET "/" "" [("x-trace", "9")] "payload").header
            "if-none-match" = "" ∧
          (Request.mk Method.GET "/" "" [("x-trace", "9")] "payload").header
            "if-modified-since" = "")) ∨
      reqFresh ExpressVersion.v5 (Request.mk Method.GET "/" "a=1" [("accept", "text/html")] "")
          initialStatusCode ((fun _ => "tag") (rootBody (Process.mk false 7 4 none))) =
        reqFresh ExpressVersion.v5 (Request.mk Method.GET "/" "" [("x-trace", "9")] "payload")
          initialStatusCode
          ((fun _ => "tag") (rootBody (Process.mk false 7 2 (some "8080"))))) ∧
    serve (Stack.mk ExpressVersion.v5 (fun _ => "tag")) (Process.mk false 7 4 none)
        (Request.mk Method.GET "/" "a=1" [("accept", "text/html")] "") =
      serve (Stack.mk ExpressVersion.v5 (fun _ => "tag")) (Process.mk false 7 2 (some "8080"))
        (Request.mk Method.GET "/" "" [("x-trace", "9")] "payload") :=
  ⟨Or.inl (by decide),
    get_root_independent_of_request (Stack.mk ExpressVersion.v5 (fun _ => "tag")) 7 4 2
      none (some "8080") "a=1" "" [("accept", "text/html")] [("x-trace", "9")] ""
      "payload" (Or.inl (by decide))⟩

/-- C10: PORT is process.env.PORT || 3000.  A worker passes to listen the number
3000 when the variable is absent or the empty string, and the string s itself,
unparsed, for every other value s of the variable; so the string 0 and a
non-numeric string are passed as they are. -/
theorem port_fallback_by_falsiness (pid cpus : Nat) (s : String) :
    PORT (Process.mk false pid cpus (some s)) =
      jsOr (processEnvPORT (Process.mk false pid cpus (some s))) (JsVal.num 3000) ∧
    listenArgs (main (Process.mk false pid cpus none)) = [JsVal.num 3000] ∧
    listenArgs (main (Process.mk false pid cpus (some ""))) = [JsVal.num 3000] ∧
    listenArgs (main (Process.mk false pid cpus (some s))) =
      [if s = "" then JsVal.num 3000 else JsVal.str s] ∧
    listenArgs (main (Process.mk false pid cpus (some "0"))) = [JsVal.str "0"] ∧
    listenArgs (main (Process.mk false pid cpus (some "http"))) = [JsVal.str "http"] := by
  refine ⟨rfl, ?_, ?_, ?_, ?_, ?_⟩
  · rw [listenArgs_worker]
    rfl
  · rw [listenArgs_worker]
    rfl
  · rw [listenArgs_worker, PORT_some]
  · rw [listenArgs_worker]
    rfl
  · rw [listenArgs_worker]
    rfl

end ScalableNodeApi
